import Mathlib

/-!
Shallow embedding of the optra operational-transformation core
(src/operations.rs and src/utils.rs).

Machine integers are modelled as `Nat` (u64 positions/lengths, u32
timestamps/site ids) and `Int` (i64 offsets); Rust's i64-to-u64
casts of in-branch non-negative values are modelled by `Int.toNat`,
and the fixed-width wire writes truncate exactly as the `as u32`
casts do.  `unimplemented!()` bodies are modelled as `Option`-valued
functions returning `none`.
-/

structure InsertOperation where
  timestamp : Nat
  position : Nat
  value : List Nat
  site_id : Nat
deriving DecidableEq, Repr

structure DeleteOperation where
  timestamp : Nat
  position : Nat
  length : Nat
deriving DecidableEq, Repr

inductive OverlapResult where
  | Precedes
  | Follows
  | Encloses (k : Nat)
  | OverlapFront (k : Nat)
  | OverlapBack (k : Nat)
  | EnclosedBy (k : Nat)
deriving DecidableEq, Repr

inductive CrossResult where
  | Precedes
  | Follows
  | Crosses (k : Nat)
deriving DecidableEq, Repr

def InsertOperation.get_increment (self : InsertOperation) : Int :=
  (self.value.length : Int)

def DeleteOperation.get_increment (self : DeleteOperation) : Int :=
  -(self.length : Int)

def InsertOperation.compare_with_offsets (self other : InsertOperation)
    (my_offset other_offset : Int) : Bool :=
  let my_pos : Int := (self.position : Int) - my_offset
  let other_pos : Int := (other.position : Int) - other_offset
  my_pos < other_pos || (my_pos == other_pos && self.site_id < other.site_id)

def InsertOperation.check_overlap_with_insert (self other : InsertOperation)
    (my_offset other_offset : Int) : OverlapResult :=
  if other.compare_with_offsets self other_offset my_offset then
    OverlapResult.Precedes
  else
    OverlapResult.Follows

def InsertOperation.check_overlap_with_delete (self : InsertOperation)
    (other : DeleteOperation) (my_offset other_offset : Int) : OverlapResult :=
  let my_pos := (self.position : Int) - my_offset
  let other_front := (other.position : Int) - other_offset
  let other_back := other_front + (other.length : Int)
  if my_pos ≤ other_front then
    OverlapResult.Follows
  else if my_pos < other_back then
    OverlapResult.Encloses (my_pos - other_front).toNat
  else
    OverlapResult.Precedes

def DeleteOperation.check_overlap_with_insert (self : DeleteOperation)
    (other : InsertOperation) (my_offset other_offset : Int) : OverlapResult :=
  let my_front := (self.position : Int) - my_offset
  let my_back := my_front + (self.length : Int)
  let other_pos := (other.position : Int) - other_offset
  if other_pos ≤ my_front then
    OverlapResult.Precedes
  else if other_pos < my_back then
    OverlapResult.EnclosedBy (other_pos - my_front).toNat
  else
    OverlapResult.Follows

def DeleteOperation.check_overlap_with_delete (self other : DeleteOperation)
    (my_offset other_offset : Int) : OverlapResult :=
  let my_front := (self.position : Int) - my_offset
  let my_back := my_front + (self.length : Int)
  let other_front := (other.position : Int) - other_offset
  let other_back := other_front + (other.length : Int)
  if other_front < my_front then
    if my_front < other_back then
      if my_back < other_back then
        OverlapResult.Encloses (my_front - other_front).toNat
      else
        OverlapResult.OverlapFront (other_back - my_front).toNat
    else
      OverlapResult.Precedes
  else
    if other_front < my_back then
      if other_back < my_back then
        if other_front = my_front then
          OverlapResult.OverlapFront (other_back - my_front).toNat
        else
          OverlapResult.EnclosedBy (other_front - my_front).toNat
      else
        OverlapResult.OverlapBack (my_back - other_front).toNat
    else
      OverlapResult.Follows

def InsertOperation.crosses (self : InsertOperation) (other : DeleteOperation)
    (my_offset other_offset : Int) : CrossResult :=
  if (other.position : Int) - other_offset ≤ (self.position : Int) - my_offset then
    CrossResult.Follows
  else
    CrossResult.Precedes

def DeleteOperation.crosses (self : DeleteOperation) (other : DeleteOperation)
    (my_offset other_offset : Int) : CrossResult :=
  let my_front := (self.position : Int) - my_offset
  let my_back := my_front + (self.length : Int)
  let other_front := (other.position : Int) - other_offset
  if other_front ≤ my_front then
    CrossResult.Follows
  else if other_front < my_back then
    CrossResult.Crosses (other_front - my_front).toNat
  else
    CrossResult.Precedes

def InsertOperation.update_position_by (self : InsertOperation) (delta : Int) :
    InsertOperation :=
  { self with position := ((self.position : Int) + delta).toNat }

def DeleteOperation.update_position_by (self : DeleteOperation) (delta : Int) :
    DeleteOperation :=
  { self with position := ((self.position : Int) + delta).toNat }

def DeleteOperation.update_size_by (self : DeleteOperation) (delta : Int) :
    DeleteOperation :=
  { self with length := ((self.length : Int) + delta).toNat }

def InsertOperation.set_length_to_zero (self : InsertOperation) : InsertOperation :=
  self

def DeleteOperation.set_length_to_zero (self : DeleteOperation) : DeleteOperation :=
  { self with length := 0 }

/-- `DeleteOperation::split` mutates `self` into the head and returns the tail;
here it returns `(mutated self, returned tail)`. -/
def DeleteOperation.split (self : DeleteOperation) (split_pos : Nat) :
    DeleteOperation × DeleteOperation :=
  ({ self with length := split_pos },
   DeleteOperation.mk self.timestamp self.position (self.length - split_pos))

inductive Op where
  | insert (op : InsertOperation)
  | delete (op : DeleteOperation)
deriving DecidableEq, Repr

def Op.get_increment : Op → Int
  | .insert i => i.get_increment
  | .delete d => d.get_increment

def Op.get_position : Op → Nat
  | .insert i => i.position
  | .delete d => d.position

def Op.get_timestamp : Op → Nat
  | .insert i => i.timestamp
  | .delete d => d.timestamp

def Op.update_position_by : Op → Int → Op
  | .insert i, delta => .insert (i.update_position_by delta)
  | .delete d, delta => .delete (d.update_position_by delta)

/-- `InsertOperation::update_size_by` is `unimplemented!()`: modelled as `none`. -/
def Op.update_size_by : Op → Int → Option Op
  | .insert _, _ => none
  | .delete d, delta => some (.delete (d.update_size_by delta))

def Op.set_length_to_zero : Op → Op
  | .insert i => .insert i.set_length_to_zero
  | .delete d => .delete d.set_length_to_zero

/-- `InsertOperation::split` is `unimplemented!()`: modelled as `none`. -/
def Op.split : Op → Nat → Option (Op × Op)
  | .insert _, _ => none
  | .delete d, k => some (.delete (d.split k).1, .delete (d.split k).2)

/-- Generic double dispatch: `self.check_overlap(other, my, oth)` calls
`other.check_overlap_with_<kind of self>(self, oth, my)`. -/
def Op.check_overlap (self other : Op) (my_offset other_offset : Int) :
    OverlapResult :=
  match self, other with
  | .insert a, .insert b => b.check_overlap_with_insert a other_offset my_offset
  | .insert a, .delete b => b.check_overlap_with_insert a other_offset my_offset
  | .delete a, .insert b => b.check_overlap_with_delete a other_offset my_offset
  | .delete a, .delete b => b.check_overlap_with_delete a other_offset my_offset

/-- Generic crossing dispatch.  `InsertOperation::crossed_by` is
`unimplemented!()` (modelled as `none`); `DeleteOperation::crossed_by`
calls `other.crosses(self, other_offset, my_offset)`. -/
def Op.crossed_by (self other : Op) (my_offset other_offset : Int) :
    Option CrossResult :=
  match self, other with
  | .insert _, _ => none
  | .delete d, .insert o => some (o.crosses d other_offset my_offset)
  | .delete d, .delete o => some (o.crosses d other_offset my_offset)

inductive Advance where
  | Incoming
  | Existing
  | Neither (tail : Op)
deriving DecidableEq, Repr

structure SequenceTransformer where
  incoming_offset : Int
  existing_offset : Int
  total_overlap : Int
deriving DecidableEq, Repr

def SequenceTransformer.new : SequenceTransformer :=
  { incoming_offset := 0, existing_offset := 0, total_overlap := 0 }

/-- `SequenceTransformer::update_with`.  The Rust code mutates `self` and
`incoming_operation` through references and never mutates
`exisiting_operation` (taken by shared reference); state passing returns
`(transformer, incoming, existing, advance)`.  Branches that would reach
an `unimplemented!()` method (split or size change of an Insert) yield
`none`. -/
def SequenceTransformer.update_with (self : SequenceTransformer)
    (overlap : OverlapResult) (incoming_operation exisiting_operation : Op) :
    Option (SequenceTransformer × Op × Op × Advance) :=
  match overlap with
  | OverlapResult.Precedes =>
    let s := { self with
      incoming_offset := self.incoming_offset + incoming_operation.get_increment }
    let inc := incoming_operation.update_position_by
      (self.existing_offset + self.total_overlap)
    some (s, inc, exisiting_operation, Advance.Incoming)
  | OverlapResult.Follows =>
    let s := { self with
      existing_offset := self.existing_offset + exisiting_operation.get_increment }
    some (s, incoming_operation, exisiting_operation, Advance.Existing)
  | OverlapResult.EnclosedBy front_difference =>
    let s := { self with
      incoming_offset := self.incoming_offset + incoming_operation.get_increment }
    let inc := incoming_operation.update_position_by
      (self.existing_offset + self.total_overlap - (front_difference : Int))
    let s := { s with total_overlap := s.total_overlap - inc.get_increment }
    let inc := inc.set_length_to_zero
    some (s, inc, exisiting_operation, Advance.Incoming)
  | OverlapResult.Encloses front_difference =>
    match incoming_operation.split front_difference with
    | none => none
    | some (head, new_op) =>
      let s := { self with
        incoming_offset := self.incoming_offset + head.get_increment }
      let inc := head.update_position_by (self.existing_offset + self.total_overlap)
      some (s, inc, exisiting_operation, Advance.Neither new_op)
  | OverlapResult.OverlapBack amount =>
    let s := { self with
      existing_offset := self.existing_offset + exisiting_operation.get_increment,
      total_overlap := self.total_overlap + (amount : Int),
      incoming_offset := self.incoming_offset - (amount : Int) }
    match incoming_operation.update_size_by (-(amount : Int)) with
    | none => none
    | some inc => some (s, inc, exisiting_operation, Advance.Existing)
  | OverlapResult.OverlapFront amount =>
    let s := { self with
      incoming_offset := self.incoming_offset + incoming_operation.get_increment }
    match incoming_operation.update_size_by (-(amount : Int)) with
    | none => none
    | some inc =>
      let inc := inc.update_position_by (self.existing_offset + self.total_overlap)
      let s := { s with total_overlap := s.total_overlap + (amount : Int) }
      some (s, inc, exisiting_operation, Advance.Incoming)

def SequenceTransformer.transform_operations (self : SequenceTransformer)
    (incoming_operation exisiting_operation : Op) :
    Option (SequenceTransformer × Op × Op × Advance) :=
  self.update_with
    (incoming_operation.check_overlap exisiting_operation
      self.incoming_offset self.existing_offset)
    incoming_operation exisiting_operation

def SequenceTransformer.transform_single (self : SequenceTransformer)
    (operation : Op) : Op :=
  operation.update_position_by (self.existing_offset + self.total_overlap)

structure SequenceSwapper where
  incoming_offset : Int
  existing_offset : Int
deriving DecidableEq, Repr

def SequenceSwapper.new : SequenceSwapper :=
  { incoming_offset := 0, existing_offset := 0 }

/-- `SequenceSwapper::swap_operations`.  The existing operation is a
`&mut DeleteOperation` and may move in the `Follows` branch; the result is
`(swapper, incoming, existing, advance)`, and `none` marks a run into an
`unimplemented!()` method (splitting an Insert). -/
def SequenceSwapper.swap_operations (self : SequenceSwapper)
    (incoming_operation : Op) (exisiting_operation : DeleteOperation) :
    Option (SequenceSwapper × Op × DeleteOperation × Advance) :=
  match (Op.delete exisiting_operation).crossed_by incoming_operation
      self.existing_offset (self.incoming_offset + self.existing_offset) with
  | none => none
  | some CrossResult.Precedes =>
    let s := { self with
      incoming_offset := self.incoming_offset + incoming_operation.get_increment }
    let inc := incoming_operation.update_position_by (-self.existing_offset)
    some (s, inc, exisiting_operation, Advance.Incoming)
  | some CrossResult.Follows =>
    let s := { self with
      existing_offset := self.existing_offset + (Op.delete exisiting_operation).get_increment }
    let ex := exisiting_operation.update_position_by self.incoming_offset
    some (s, incoming_operation, ex, Advance.Existing)
  | some (CrossResult.Crosses front_difference) =>
    match incoming_operation.split front_difference with
    | none => none
    | some (head, new_op) =>
      let s := { self with
        incoming_offset := self.incoming_offset + head.get_increment }
      let inc := head.update_position_by (-self.existing_offset)
      some (s, inc, exisiting_operation, Advance.Neither new_op)

def write_u32 (n : Nat) : List Nat :=
  [n / 16777216 % 256, n / 65536 % 256, n / 256 % 256, n % 256]

def write_u64 (n : Nat) : List Nat :=
  [n / 72057594037927936 % 256, n / 281474976710656 % 256,
   n / 1099511627776 % 256, n / 4294967296 % 256,
   n / 16777216 % 256, n / 65536 % 256, n / 256 % 256, n % 256]

def read_u32 : List Nat → Option (Nat × List Nat)
  | b0 :: b1 :: b2 :: b3 :: rest =>
    some (((b0 * 256 + b1) * 256 + b2) * 256 + b3, rest)
  | _ => none

def read_u64 : List Nat → Option (Nat × List Nat)
  | b0 :: b1 :: b2 :: b3 :: b4 :: b5 :: b6 :: b7 :: rest =>
    some ((((((((b0 * 256 + b1) * 256 + b2) * 256 + b3) * 256 + b4) * 256 + b5)
      * 256 + b6) * 256 + b7), rest)
  | _ => none

def read_exact (n : Nat) (s : List Nat) : Option (List Nat × List Nat) :=
  if n ≤ s.length then some (s.take n, s.drop n) else none

/-- `DeleteOperation::compress_to`: big-endian `timestamp:u32`,
`position:u64`, `length:u64`. -/
def DeleteOperation.compress_to (self : DeleteOperation) : List Nat :=
  write_u32 self.timestamp ++ write_u64 self.position ++ write_u64 self.length

def DeleteOperation.expand_from (s : List Nat) :
    Option (DeleteOperation × List Nat) :=
  match read_u32 s with
  | none => none
  | some (timestamp, s) =>
    match read_u64 s with
    | none => none
    | some (position, s) =>
      match read_u64 s with
      | none => none
      | some (len, s) =>
        some (DeleteOperation.mk timestamp position len, s)

/-- `InsertOperation::compress_to`: big-endian `timestamp:u32`,
`position:u64`, `value_length:u32` (the `as u32` truncation is performed
by the fixed-width write), the value bytes, then optionally `site_id:u32`. -/
def InsertOperation.compress_to (self : InsertOperation)
    (include_site_id : Bool) : List Nat :=
  write_u32 self.timestamp ++ write_u64 self.position ++
    write_u32 self.value.length ++ self.value ++
    (if include_site_id then write_u32 self.site_id else [])

def InsertOperation.expand_from (s : List Nat)
    (timestamp_lookup : Option (Nat → Option (Nat × Nat))) :
    Option (InsertOperation × List Nat) :=
  match read_u32 s with
  | none => none
  | some (timestamp, s) =>
    match read_u64 s with
    | none => none
    | some (position, s) =>
      match read_u32 s with
      | none => none
      | some (value_len, s) =>
        match read_exact value_len s with
        | none => none
        | some (value, s) =>
          match timestamp_lookup with
          | some lookup =>
            match lookup timestamp with
            | some (site_id, _) =>
              some (InsertOperation.mk timestamp position value site_id, s)
            | none => none
          | none =>
            match read_u32 s with
            | none => none
            | some (site_id, s) =>
              some (InsertOperation.mk timestamp position value site_id, s)

/-- The operand-swap inversion mapping on classification results stated by
the spec: Precedes and Follows swap, Encloses and EnclosedBy swap,
OverlapFront and OverlapBack swap, payloads unchanged. -/
def OverlapResult.invert : OverlapResult → OverlapResult
  | .Precedes => .Follows
  | .Follows => .Precedes
  | .Encloses k => .EnclosedBy k
  | .EnclosedBy k => .Encloses k
  | .OverlapFront k => .OverlapBack k
  | .OverlapBack k => .OverlapFront k

/-- An operation whose effective length has been zeroed: a delete has
length 0; an insert is untouched by set_length_to_zero, so any insert
qualifies. -/
def effective_length_zero : Op → Prop
  | Op.insert _ => True
  | Op.delete d => d.length = 0

/-- The frame relation claimed for a transformer step: the operation kind is
unchanged, the timestamp is unchanged, and an insert also keeps its site id
and its value bytes (so only position, and a delete's length, may move). -/
def payload_preserved : Op → Op → Prop
  | Op.insert i, Op.insert i' =>
    i'.timestamp = i.timestamp ∧ i'.site_id = i.site_id ∧ i'.value = i.value
  | Op.delete d, Op.delete d' => d'.timestamp = d.timestamp
  | _, _ => False

/-- Claim C2 (counterexample): with the delete as the incoming (receiver)
operand, Delete(pos 1, len 5).check_overlap(Insert(pos 2), 0, 0) does not
return EnclosedBy(1) as the claim states. -/
theorem c2_counterexample :
    Op.check_overlap (Op.delete (DeleteOperation.mk 0 1 5))
      (Op.insert (InsertOperation.mk 1 2 [0] 2)) 0 0 ≠
    OverlapResult.EnclosedBy 1 := by
  decide

/-- Claim C2 (amended): classifying Delete(pos 1, len 5) as the incoming
(first, self) operand against an existing Insert(pos 2), offsets (0, 0),
returns Encloses(1) — the delete encloses the insert; EnclosedBy(1) is the
result of the reversed operand order (insert incoming, delete existing). -/
theorem c2_amended :
    Op.check_overlap (Op.delete (DeleteOperation.mk 0 1 5))
      (Op.insert (InsertOperation.mk 1 2 [0] 2)) 0 0 =
      OverlapResult.Encloses 1 ∧
    Op.check_overlap (Op.insert (InsertOperation.mk 1 2 [0] 2))
      (Op.delete (DeleteOperation.mk 0 1 5)) 0 0 =
      OverlapResult.EnclosedBy 1 := by
  decide

/-- Claim C5: splitting a delete of length L at k produces a head of
length k at the original position (the receiver, mutated in place) and a
tail of length L - k also at the original position; the total deleted
length is conserved and neither half moves. -/
theorem c5_split_conservation (d : DeleteOperation) (k : Nat)
    (hk : k ≤ d.length) :
    (d.split k).1.length = k ∧
    (d.split k).1.position = d.position ∧
    (d.split k).2.length = d.length - k ∧
    (d.split k).2.position = d.position ∧
    (d.split k).1.length + (d.split k).2.length = d.length := by
  refine ⟨rfl, rfl, rfl, rfl, ?_⟩
  simp only [DeleteOperation.split]
  omega

theorem c5_split_conservation_witness :
    ((DeleteOperation.mk 0 3 7).split 2).1.length = 2 ∧
    ((DeleteOperation.mk 0 3 7).split 2).1.position = 3 ∧
    ((DeleteOperation.mk 0 3 7).split 2).2.length = 5 ∧
    ((DeleteOperation.mk 0 3 7).split 2).2.position = 3 ∧
    ((DeleteOperation.mk 0 3 7).split 2).1.length +
      ((DeleteOperation.mk 0 3 7).split 2).2.length = 7 :=
  c5_split_conservation (DeleteOperation.mk 0 3 7) 2 (by decide)

/-- Claim C6: the delete-vs-delete crossing classifier returns Follows when
the other operation's adjusted front is at or before self's adjusted front,
Crosses(other_front - self_front) when the other front lies strictly inside
self's adjusted span, and Precedes otherwise. -/
theorem c6_crosses_spec (s o : DeleteOperation) (mo oo : Int) :
    (((o.position : Int) - oo ≤ (s.position : Int) - mo →
        s.crosses o mo oo = CrossResult.Follows) ∧
     ((s.position : Int) - mo < (o.position : Int) - oo →
        (o.position : Int) - oo < (s.position : Int) - mo + (s.length : Int) →
        s.crosses o mo oo =
          CrossResult.Crosses
            (((o.position : Int) - oo) - ((s.position : Int) - mo)).toNat) ∧
     ((s.position : Int) - mo < (o.position : Int) - oo →
        (s.position : Int) - mo + (s.length : Int) ≤ (o.position : Int) - oo →
        s.crosses o mo oo = CrossResult.Precedes)) := by
  refine ⟨?_, ?_, ?_⟩
  · intro h1
    simp only [DeleteOperation.crosses]
    split_ifs <;> first | rfl | omega
  · intro h1 h2
    simp only [DeleteOperation.crosses]
    split_ifs <;> first | rfl | omega
  · intro h1 h2
    simp only [DeleteOperation.crosses]
    split_ifs <;> first | rfl | omega

theorem c6_crosses_spec_witness :
    (DeleteOperation.mk 0 1 5).crosses (DeleteOperation.mk 1 3 2) 0 0 =
      CrossResult.Crosses 2 :=
  (c6_crosses_spec (DeleteOperation.mk 0 1 5) (DeleteOperation.mk 1 3 2) 0 0).2.1
    (by decide) (by decide)

/-- Claim C3 (counterexample): two deletes with equal adjusted fronts need
not classify as OverlapFront: two identical spans classify as OverlapBack(5)
(the repo's own unit test asserts exactly this result). -/
theorem c3_counterexample :
    DeleteOperation.check_overlap_with_delete (DeleteOperation.mk 0 1 5)
      (DeleteOperation.mk 1 1 5) 0 0 = OverlapResult.OverlapBack 5 ∧
    DeleteOperation.check_overlap_with_delete (DeleteOperation.mk 0 1 5)
      (DeleteOperation.mk 1 1 5) 0 0 ≠ OverlapResult.OverlapFront 5 := by
  decide

/-- Claim C3 (amended): when the two offset-adjusted fronts are equal, the
delete-vs-delete classification never returns EnclosedBy; and in the
sub-case where the other span's adjusted back lies strictly below self's
adjusted back it returns OverlapFront with payload the other (truncated)
span's full extent.  (Outside that sub-case equal fronts yield OverlapBack
or Follows.) -/
theorem c3_equal_fronts (s o : DeleteOperation) (mo oo : Int)
    (hf : (s.position : Int) - mo = (o.position : Int) - oo) :
    (∀ k, s.check_overlap_with_delete o mo oo ≠ OverlapResult.EnclosedBy k) ∧
    ((o.position : Int) - oo + (o.length : Int) <
        (s.position : Int) - mo + (s.length : Int) →
      s.check_overlap_with_delete o mo oo = OverlapResult.OverlapFront o.length) := by
  constructor
  · intro k
    simp only [DeleteOperation.check_overlap_with_delete]
    split_ifs <;> first | omega | simp
  · intro hb
    simp only [DeleteOperation.check_overlap_with_delete]
    split_ifs <;> first | omega | (congr 1; omega)

theorem c3_equal_fronts_witness :
    (DeleteOperation.mk 0 1 5).check_overlap_with_delete
      (DeleteOperation.mk 1 1 3) 0 0 ≠ OverlapResult.EnclosedBy 0 ∧
    (DeleteOperation.mk 0 1 5).check_overlap_with_delete
      (DeleteOperation.mk 1 1 3) 0 0 = OverlapResult.OverlapFront 3 :=
  ⟨(c3_equal_fronts (DeleteOperation.mk 0 1 5) (DeleteOperation.mk 1 1 3) 0 0
      (by decide)).1 0,
   (c3_equal_fronts (DeleteOperation.mk 0 1 5) (DeleteOperation.mk 1 1 3) 0 0
      (by decide)).2 (by decide)⟩

/-- Claim C1 (counterexample): classifier symmetry under the
Precedes-Follows / Encloses-EnclosedBy / OverlapFront-OverlapBack inversion
fails on tied operands: two identical deletes classify as OverlapBack(5) in
both orders, and the inverse of OverlapBack(5) is OverlapFront(5). -/
theorem c1_counterexample :
    (Op.check_overlap (Op.delete (DeleteOperation.mk 0 1 5))
        (Op.delete (DeleteOperation.mk 1 1 5)) 0 0).invert ≠
      Op.check_overlap (Op.delete (DeleteOperation.mk 1 1 5))
        (Op.delete (DeleteOperation.mk 0 1 5)) 0 0 := by
  decide

/-- Claim C1 (amended): classify(a,b,oa,ob) and classify(b,a,ob,oa) are
inverses under Precedes-Follows, Encloses-EnclosedBy and
OverlapFront-OverlapBack (identical payloads), for every pair of operations
and offsets except the tied pairs the tie-break cannot order: two inserts
with equal adjusted positions and equal site ids, and two deletes with
equal adjusted fronts whose spans are degenerate or identical (one length
zero, or equal lengths). -/
theorem c1_symmetry (a b : Op) (oa ob : Int)
    (hins : ∀ i j, a = Op.insert i → b = Op.insert j →
      (i.position : Int) - oa = (j.position : Int) - ob → i.site_id ≠ j.site_id)
    (hdel : ∀ d e, a = Op.delete d → b = Op.delete e →
      (d.position : Int) - oa = (e.position : Int) - ob →
      0 < d.length ∧ 0 < e.length ∧ d.length ≠ e.length) :
    (Op.check_overlap a b oa ob).invert = Op.check_overlap b a ob oa := by
  cases a with
  | insert i =>
    cases b with
    | insert j =>
      have hs := hins i j rfl rfl
      simp only [Op.check_overlap, InsertOperation.check_overlap_with_insert,
        InsertOperation.compare_with_offsets, Bool.or_eq_true, Bool.and_eq_true,
        decide_eq_true_eq, beq_iff_eq]
      by_cases hpos : (i.position : Int) - oa = (j.position : Int) - ob
      · have hsite := hs hpos
        split_ifs <;> first | rfl | omega
      · split_ifs <;> first | rfl | omega
    | delete e =>
      simp only [Op.check_overlap, DeleteOperation.check_overlap_with_insert,
        InsertOperation.check_overlap_with_delete]
      split_ifs <;> first | rfl | omega
  | delete d =>
    cases b with
    | insert j =>
      simp only [Op.check_overlap, DeleteOperation.check_overlap_with_insert,
        InsertOperation.check_overlap_with_delete]
      split_ifs <;> first | rfl | omega
    | delete e =>
      have hd := hdel d e rfl rfl
      simp only [Op.check_overlap, DeleteOperation.check_overlap_with_delete]
      by_cases hf : (d.position : Int) - oa = (e.position : Int) - ob
      · obtain ⟨hd1, hd2, hd3⟩ := hd hf
        split_ifs <;> first | rfl | omega
      · split_ifs <;> first | rfl | omega

theorem c1_symmetry_witness :
    (Op.check_overlap (Op.delete (DeleteOperation.mk 0 1 5))
        (Op.delete (DeleteOperation.mk 1 2 4)) 0 0).invert =
      Op.check_overlap (Op.delete (DeleteOperation.mk 1 2 4))
        (Op.delete (DeleteOperation.mk 0 1 5)) 0 0 :=
  c1_symmetry (Op.delete (DeleteOperation.mk 0 1 5))
    (Op.delete (DeleteOperation.mk 1 2 4)) 0 0
    (by intro i j h; exact Op.noConfusion h)
    (by
      intro d e hd he hfr
      exfalso
      cases hd
      cases he
      simp at hfr)

/-- Repositioning an operation leaves its size increment unchanged. -/
theorem Op.get_increment_update_position_by (op : Op) (delta : Int) :
    (op.update_position_by delta).get_increment = op.get_increment := by
  cases op <;> rfl

/-- Claim C4: a transformer step whose classification is EnclosedBy(k) adds
the incoming increment to incoming_offset, repositions the incoming
operation by existing_offset + total_overlap - k, subtracts the incoming
increment from total_overlap, zeroes the incoming operation's effective
length (a no-op for an Insert, length zero for a Delete), leaves
existing_offset and the existing operation alone, and advances Incoming. -/
theorem c4_enclosed_by_step (t : SequenceTransformer) (inc ex : Op) (k : Nat)
    (h : 0 ≤ (inc.get_position : Int) +
      (t.existing_offset + t.total_overlap - (k : Int))) :
    t.update_with (OverlapResult.EnclosedBy k) inc ex =
      some (SequenceTransformer.mk (t.incoming_offset + inc.get_increment)
          t.existing_offset (t.total_overlap - inc.get_increment),
        (inc.update_position_by
          (t.existing_offset + t.total_overlap - (k : Int))).set_length_to_zero,
        ex, Advance.Incoming) ∧
    (((inc.update_position_by
        (t.existing_offset + t.total_overlap - (k : Int))).set_length_to_zero).get_position : Int) =
      (inc.get_position : Int) + (t.existing_offset + t.total_overlap - (k : Int)) ∧
    effective_length_zero ((inc.update_position_by
      (t.existing_offset + t.total_overlap - (k : Int))).set_length_to_zero) := by
  refine ⟨?_, ?_, ?_⟩
  · simp only [SequenceTransformer.update_with,
      Op.get_increment_update_position_by]
  · cases inc with
    | insert i =>
      simp only [Op.update_position_by, Op.set_length_to_zero,
        InsertOperation.update_position_by, InsertOperation.set_length_to_zero,
        Op.get_position]
      simp only [Op.get_position] at h
      omega
    | delete d =>
      simp only [Op.update_position_by, Op.set_length_to_zero,
        DeleteOperation.update_position_by, DeleteOperation.set_length_to_zero,
        Op.get_position]
      simp only [Op.get_position] at h
      omega
  · cases inc with
    | insert i => trivial
    | delete d => rfl

theorem c4_enclosed_by_step_witness :
    SequenceTransformer.update_with (SequenceTransformer.mk 1 2 3)
        (OverlapResult.EnclosedBy 2) (Op.delete (DeleteOperation.mk 7 10 4))
        (Op.insert (InsertOperation.mk 0 0 [] 0)) =
      some (SequenceTransformer.mk
          (1 + (Op.delete (DeleteOperation.mk 7 10 4)).get_increment) 2
          (3 - (Op.delete (DeleteOperation.mk 7 10 4)).get_increment),
        ((Op.delete (DeleteOperation.mk 7 10 4)).update_position_by
          (2 + 3 - (2 : Int))).set_length_to_zero,
        Op.insert (InsertOperation.mk 0 0 [] 0), Advance.Incoming) ∧
    ((((Op.delete (DeleteOperation.mk 7 10 4)).update_position_by
        (2 + 3 - (2 : Int))).set_length_to_zero).get_position : Int) =
      ((Op.delete (DeleteOperation.mk 7 10 4)).get_position : Int) +
        (2 + 3 - (2 : Int)) ∧
    effective_length_zero (((Op.delete (DeleteOperation.mk 7 10 4)).update_position_by
      (2 + 3 - (2 : Int))).set_length_to_zero) :=
  c4_enclosed_by_step (SequenceTransformer.mk 1 2 3)
    (Op.delete (DeleteOperation.mk 7 10 4))
    (Op.insert (InsertOperation.mk 0 0 [] 0)) 2 (by decide)

/-- Claim C9: a successful SequenceTransformer::transform_operations step
returns the existing operation unchanged, keeps the incoming operation's
kind, and changes at most its position and (for a delete) its length: the
incoming timestamp is preserved, and an insert additionally keeps its site
id and value bytes. -/
theorem c9_transform_frame (t : SequenceTransformer) (inc ex : Op)
    (t' : SequenceTransformer) (inc' ex' : Op) (adv : Advance)
    (h : t.transform_operations inc ex = some (t', inc', ex', adv)) :
    ex' = ex ∧ payload_preserved inc inc' := by
  unfold SequenceTransformer.transform_operations at h
  generalize Op.check_overlap inc ex t.incoming_offset t.existing_offset = r at h
  cases r <;> cases inc <;>
    simp only [SequenceTransformer.update_with, Op.update_position_by,
      Op.set_length_to_zero, Op.split, Op.update_size_by, Op.get_increment,
      InsertOperation.update_position_by, DeleteOperation.update_position_by,
      InsertOperation.set_length_to_zero, DeleteOperation.set_length_to_zero,
      DeleteOperation.split, DeleteOperation.update_size_by,
      Option.some.injEq, Prod.mk.injEq, reduceCtorEq] at h <;>
    obtain ⟨-, h2, h3, -⟩ := h <;> subst h2 <;> subst h3 <;>
    simp [payload_preserved]

theorem c9_transform_frame_witness :
    Op.delete (DeleteOperation.mk 1 0 1) = Op.delete (DeleteOperation.mk 1 0 1) ∧
    payload_preserved (Op.delete (DeleteOperation.mk 0 5 2))
      (Op.delete (DeleteOperation.mk 0 5 2)) :=
  c9_transform_frame (SequenceTransformer.mk 0 0 0)
    (Op.delete (DeleteOperation.mk 0 5 2)) (Op.delete (DeleteOperation.mk 1 0 1))
    (SequenceTransformer.mk 0 (-1) 0)
    (Op.delete (DeleteOperation.mk 0 5 2)) (Op.delete (DeleteOperation.mk 1 0 1))
    Advance.Existing (by decide)

/-- Reading back a big-endian 4-byte write recovers the value modulo 2^32
(the truncation Rust's `as u32` length cast performs). -/
theorem read_u32_write_u32 (n : Nat) (r : List Nat) :
    read_u32 (write_u32 n ++ r) = some (n % 4294967296, r) := by
  simp only [write_u32, List.cons_append, List.nil_append, read_u32,
    Option.some.injEq, Prod.mk.injEq]
  exact ⟨by omega, trivial⟩

/-- Reading back a big-endian 8-byte write recovers the value modulo 2^64. -/
theorem read_u64_write_u64 (n : Nat) (r : List Nat) :
    read_u64 (write_u64 n ++ r) = some (n % 18446744073709551616, r) := by
  simp only [write_u64, List.cons_append, List.nil_append, read_u64,
    Option.some.injEq, Prod.mk.injEq]
  exact ⟨by omega, trivial⟩

theorem read_exact_append (v r : List Nat) :
    read_exact v.length (v ++ r) = some (v, r) := by
  simp only [read_exact, List.length_append, if_pos (Nat.le_add_right _ _),
    List.take_left, List.drop_left]

/-- Claim C7: the wire format round-trips.  A delete whose fields fit their
wire widths decodes back to itself; an insert round-trips both with the
site id embedded (no lookup table) and with a lookup table that maps its
timestamp to its site id. -/
theorem c7_compress_expand_round_trip :
    (∀ (d : DeleteOperation) (r : List Nat),
      d.timestamp < 4294967296 → d.position < 18446744073709551616 →
      d.length < 18446744073709551616 →
      DeleteOperation.expand_from (d.compress_to ++ r) = some (d, r)) ∧
    (∀ (i : InsertOperation) (r : List Nat),
      i.timestamp < 4294967296 → i.position < 18446744073709551616 →
      i.value.length < 4294967296 → i.site_id < 4294967296 →
      InsertOperation.expand_from (i.compress_to true ++ r) none = some (i, r)) ∧
    (∀ (i : InsertOperation) (r : List Nat)
        (lookup : Nat → Option (Nat × Nat)) (extra : Nat),
      i.timestamp < 4294967296 → i.position < 18446744073709551616 →
      i.value.length < 4294967296 →
      lookup i.timestamp = some (i.site_id, extra) →
      InsertOperation.expand_from (i.compress_to false ++ r) (some lookup) =
        some (i, r)) := by
  refine ⟨?_, ?_, ?_⟩
  · intro d r h1 h2 h3
    simp only [DeleteOperation.compress_to, DeleteOperation.expand_from,
      List.append_assoc, read_u32_write_u32, read_u64_write_u64,
      Nat.mod_eq_of_lt h1, Nat.mod_eq_of_lt h2, Nat.mod_eq_of_lt h3]
  · intro i r h1 h2 h3 h4
    simp only [InsertOperation.compress_to, if_pos, List.append_assoc,
      InsertOperation.expand_from, read_u32_write_u32, read_u64_write_u64,
      Nat.mod_eq_of_lt h1, Nat.mod_eq_of_lt h2, Nat.mod_eq_of_lt h3,
      Nat.mod_eq_of_lt h4, read_exact_append]
  · intro i r lookup extra h1 h2 h3 h4
    simp only [InsertOperation.compress_to, Bool.false_eq_true, if_neg,
      List.append_nil, List.append_assoc, InsertOperation.expand_from,
      read_u32_write_u32, read_u64_write_u64, Nat.mod_eq_of_lt h1,
      Nat.mod_eq_of_lt h2, Nat.mod_eq_of_lt h3, read_exact_append, h4]
    simp

theorem c7_compress_expand_round_trip_witness :
    DeleteOperation.expand_from ((DeleteOperation.mk 1 2 3).compress_to ++ [9]) =
      some (DeleteOperation.mk 1 2 3, [9]) ∧
    InsertOperation.expand_from
        ((InsertOperation.mk 1 2 [10, 11] 5).compress_to true ++ [9]) none =
      some (InsertOperation.mk 1 2 [10, 11] 5, [9]) ∧
    InsertOperation.expand_from
        ((InsertOperation.mk 1 2 [10, 11] 5).compress_to false ++ [9])
        (some (fun t => if t = 1 then some (5, 0) else none)) =
      some (InsertOperation.mk 1 2 [10, 11] 5, [9]) :=
  ⟨c7_compress_expand_round_trip.1 (DeleteOperation.mk 1 2 3) [9]
      (by decide) (by decide) (by decide),
   c7_compress_expand_round_trip.2.1 (InsertOperation.mk 1 2 [10, 11] 5) [9]
      (by decide) (by decide) (by decide) (by decide),
   c7_compress_expand_round_trip.2.2 (InsertOperation.mk 1 2 [10, 11] 5) [9]
      (fun t => if t = 1 then some (5, 0) else none) 0
      (by decide) (by decide) (by decide) (by decide)⟩

/-- Claim C8: size mutation, splitting, and the generic crossing check are
all unimplemented for an InsertOperation; each such call is a panic,
modelled as bottom (`none`), never a silent no-op return. -/
theorem c8_insert_illegal_ops (i : InsertOperation) (delta : Int)
    (k : Nat) (o : Op) (mo oo : Int) :
    Op.update_size_by (Op.insert i) delta = none ∧
    Op.split (Op.insert i) k = none ∧
    Op.crossed_by (Op.insert i) o mo oo = none :=
  ⟨rfl, rfl, rfl⟩

/-- Claim C10: an InsertOperation's crossing classifier returns only Follows
or Precedes, never Crosses, so a SequenceSwapper step with an insert as the
incoming operation never reaches the Crosses branch and never invokes the
panicking InsertOperation::split: swap_operations always returns normally. -/
theorem c10_swapper_never_splits_insert (s : SequenceSwapper)
    (i : InsertOperation) (ex : DeleteOperation) :
    (∀ k, i.crosses ex (s.incoming_offset + s.existing_offset) s.existing_offset ≠
      CrossResult.Crosses k) ∧
    (s.swap_operations (Op.insert i) ex).isSome = true := by
  constructor
  · intro k
    simp only [InsertOperation.crosses]
    split_ifs <;> simp
  · simp only [SequenceSwapper.swap_operations, Op.crossed_by,
      InsertOperation.crosses]
    split_ifs <;> rfl
